import Mathlib

/- Verification of the WHOIS lookup engine: a shallow embedding of the
   whois package (server directory, referral resolver, field extractor,
   client construction) together with proofs relating it to its
   natural-language specification.  Strings are modelled by Lean strings;
   only zero-vs-nonzero of durations matters, so durations are naturals
   counting nanoseconds; the network is an explicit oracle. -/

namespace WhoisSpec

/-- White-space test matching the Go unicode.IsSpace classification used by
TrimSpace and Fields. -/
def isGoSpace (c : Char) : Bool :=
  c == ' ' || c == '\t' || c == '\n' || c == '\x0b' || c == '\x0c' || c == '\r' ||
  c == '\u0085' || c.val == 0xa0 || c.val == 0x1680 ||
  (0x2000 ≤ c.val && c.val ≤ 0x200a) ||
  c.val == 0x2028 || c.val == 0x2029 || c.val == 0x202f || c.val == 0x205f || c.val == 0x3000

/-- Drop leading and trailing white space from a character list. -/
def trimChars (l : List Char) : List Char :=
  ((l.dropWhile isGoSpace).reverse.dropWhile isGoSpace).reverse

/-- Go strings.TrimSpace. -/
def trimS (s : String) : String := ⟨trimChars s.data⟩

/-- Go strings.ToLower (ASCII case mapping; every label and key involved is ASCII). -/
def toLowerS (s : String) : String := ⟨s.data.map Char.toLower⟩

/-- Whether the second list is a leading segment of the first. -/
def listStarts : List Char → List Char → Bool
  | _, [] => true
  | [], _ :: _ => false
  | c :: cs, p :: ps => c == p && listStarts cs ps

/-- Go strings.HasPrefix. -/
def startsW (s pre : String) : Bool := listStarts s.data pre.data

/-- Whether the second list occurs as a contiguous segment of the first. -/
def listContainsSub : List Char → List Char → Bool
  | [], pat => pat.isEmpty
  | c :: t, pat => listStarts (c :: t) pat || listContainsSub t pat

/-- Go strings.Contains. -/
def containsS (s sub : String) : Bool := listContainsSub s.data sub.data

/-- Split a character list at every occurrence of a separator character. -/
def splitChar (sep : Char) : List Char → List (List Char)
  | [] => [[]]
  | c :: cs =>
    if c == sep then [] :: splitChar sep cs
    else match splitChar sep cs with
      | [] => [[c]]
      | w :: ws => (c :: w) :: ws

/-- Go strings.Split with a one-character separator. -/
def splitCharS (s : String) (sep : Char) : List String := (splitChar sep s.data).map (fun w => ⟨w⟩)

def afterColonChars : List Char → Option (List Char)
  | [] => none
  | c :: cs => if c == ':' then some cs else afterColonChars cs

/-- The text after the first colon of a line, when a colon is present: models
the second component of Go strings.SplitN(line, colon, 2) guarded by the
length-two check. -/
def afterFirstColon (s : String) : Option String := (afterColonChars s.data).map (fun l => ⟨l⟩)

/-- Go strings.TrimPrefix. -/
def trimPre (s pre : String) : String :=
  if startsW s pre then ⟨s.data.drop pre.data.length⟩ else s

/-- Truncation at the first space character when its index is positive: models
the Go idiom using strings.Index(ns, a one-space string). -/
def goCutAtSpace (s : String) : String :=
  match s.data with
  | [] => s
  | c :: cs => if c == ' ' then s else ⟨c :: cs.takeWhile (fun d => !(d == ' '))⟩

/-- Membership in the punctuation cut set of the email extractor. -/
def isCutPunct (c : Char) : Bool :=
  c == ',' || c == ':' || c == ';' || c == '(' || c == ')' || c == '<' || c == '>' ||
  c == '[' || c == ']'

/-- Go strings.Trim with the punctuation cut set of the email extractor. -/
def trimPunct (s : String) : String :=
  ⟨((s.data.dropWhile isCutPunct).reverse.dropWhile isCutPunct).reverse⟩

def fieldsChars (cur : List Char) : List Char → List (List Char)
  | [] => if cur.isEmpty then [] else [cur.reverse]
  | c :: cs =>
    if isGoSpace c then
      if cur.isEmpty then fieldsChars [] cs else cur.reverse :: fieldsChars [] cs
    else fieldsChars (c :: cur) cs

/-- Go strings.Fields: the maximal white-space-free words of a string. -/
def fieldsS (s : String) : List String := (fieldsChars [] s.data).map (fun w => ⟨w⟩)

/-- Go strings.Join with a dot separator. -/
def joinDot : List String → String
  | [] => ""
  | [s] => s
  | s :: rest => s ++ "." ++ joinDot rest

/-- A WHOIS server endpoint. -/
structure WhoisServer where
  host : String
  port : String
deriving DecidableEq

/-- A value of the generic parsed-data mirror: a scalar or a list field. -/
inductive ParsedVal where
  | s (v : String)
  | l (v : List String)
deriving DecidableEq

/-- The result of a WHOIS query, with the Go map ParsedData modelled as an
association list. -/
structure WhoisResult where
  domain : String
  rawResponse : String
  server : String
  timestamp : Nat
  error : String
  parsedData : List (String × ParsedVal)
  registrar : String
  createdDate : String
  expiryDate : String
  updatedDate : String
  nameServers : List String
  status : List String
  emails : List String
deriving DecidableEq

/-- The WHOIS lookup client; the server map is modelled as an association
list whose first binding for a key is the live one. -/
structure Client where
  timeout : Nat
  followReferral : Bool
  servers : List (String × WhoisServer)

/-- Configuration options for the WHOIS client. -/
structure Config where
  timeout : Nat
  followReferral : Bool
  customServers : List (String × WhoisServer)

/-- Go map assignment on the association-list model: the new binding shadows
and removes any previous binding of the key. -/
def goMapPut {β : Type} (m : List (String × β)) (k : String) (v : β) : List (String × β) :=
  (k, v) :: m.filter (fun p => !(p.1 == k))

/-- Go map read with the zero value for a missing key. -/
def goMapGet (m : List (String × WhoisServer)) (k : String) : WhoisServer :=
  (List.lookup k m).getD { host := "", port := "" }

/-- The built-in table mapping TLDs to their WHOIS servers. -/
def DefaultWhoisServers : List (String × WhoisServer) := [
  ("com", { host := "whois.verisign-grs.com", port := "43" }),
  ("net", { host := "whois.verisign-grs.com", port := "43" }),
  ("org", { host := "whois.pir.org", port := "43" }),
  ("info", { host := "whois.afilias.net", port := "43" }),
  ("biz", { host := "whois.biz", port := "43" }),
  ("us", { host := "whois.nic.us", port := "43" }),
  ("uk", { host := "whois.nic.uk", port := "43" }),
  ("co.uk", { host := "whois.nic.uk", port := "43" }),
  ("ca", { host := "whois.cira.ca", port := "43" }),
  ("de", { host := "whois.denic.de", port := "43" }),
  ("jp", { host := "whois.jprs.jp", port := "43" }),
  ("fr", { host := "whois.nic.fr", port := "43" }),
  ("au", { host := "whois.auda.org.au", port := "43" }),
  ("ru", { host := "whois.tcinet.ru", port := "43" }),
  ("ch", { host := "whois.nic.ch", port := "43" }),
  ("it", { host := "whois.nic.it", port := "43" }),
  ("nl", { host := "whois.domain-registry.nl", port := "43" }),
  ("eu", { host := "whois.eu", port := "43" }),
  ("nz", { host := "whois.irs.net.nz", port := "43" }),
  ("io", { host := "whois.nic.io", port := "43" }),
  ("me", { host := "whois.nic.me", port := "43" }),
  ("tv", { host := "whois.nic.tv", port := "43" }),
  ("cc", { host := "whois.nic.cc", port := "43" }),
  ("app", { host := "whois.nic.google", port := "43" }),
  ("dev", { host := "whois.nic.google", port := "43" }),
  ("ai", { host := "whois.nic.ai", port := "43" }),
  ("co", { host := "whois.nic.co", port := "43" }),
  ("asia", { host := "whois.nic.asia", port := "43" }),
  ("mobi", { host := "whois.nic.mobi", port := "43" }),
  ("xxx", { host := "whois.nic.xxx", port := "43" }),
  ("tel", { host := "whois.nic.tel", port := "43" }),
  ("in", { host := "whois.registry.in", port := "43" }),
  ("cn", { host := "whois.cnnic.cn", port := "43" }),
  ("br", { host := "whois.registro.br", port := "43" }),
  ("mx", { host := "whois.mx", port := "43" }),
  ("se", { host := "whois.iis.se", port := "43" }),
  ("be", { host := "whois.dns.be", port := "43" }),
  ("at", { host := "whois.nic.at", port := "43" }),
  ("dk", { host := "whois.dk-hostmaster.dk", port := "43" }),
  ("fi", { host := "whois.fi", port := "43" }),
  ("is", { host := "whois.isnic.is", port := "43" }),
  ("cz", { host := "whois.nic.cz", port := "43" }),
  ("pl", { host := "whois.dns.pl", port := "43" }),
  ("default", { host := "whois.iana.org", port := "43" })]

def nsPerSecond : Nat := 1000000000

/-- The default configuration: ten-second timeout, referral following on. -/
def DefaultConfig : Config :=
  { timeout := 10 * nsPerSecond, followReferral := true, customServers := [] }

/-- Client construction: a missing configuration falls back to the default,
a zero timeout falls back to ten seconds, and the custom servers are merged
over the built-in table.  The second component is the returned error, which
is always absent. -/
def NewClient (config? : Option Config) : Client × Option String :=
  let config := match config? with
    | none => DefaultConfig
    | some c => c
  let config := if config.timeout == 0 then { config with timeout := 10 * nsPerSecond } else config
  let servers := List.foldl (fun m p => goMapPut m p.1 p.2) [] DefaultWhoisServers
  let servers := List.foldl (fun m p => goMapPut m p.1 p.2) servers config.customServers
  ({ timeout := config.timeout, followReferral := config.followReferral, servers := servers },
   none)

/-- Server selection for a domain: compound TLD first, then bare TLD, then
the default entry; an error for a domain with fewer than two labels. -/
def getWhoisServer (servers : List (String × WhoisServer)) (domain : String) :
    Except String WhoisServer :=
  let parts := splitCharS domain '.'
  if parts.length < 2 then
    Except.error ("invalid domain format: " ++ domain)
  else
    match (if 3 ≤ parts.length then
             List.lookup (joinDot (parts.drop (parts.length - 2))) servers
           else none) with
    | some server => Except.ok server
    | none =>
      match List.lookup (parts.getLastD "") servers with
      | some server => Except.ok server
      | none => Except.ok (goMapGet servers "default")

/-- The scan of the referral extractor over the split lines, returning the
first accepted candidate or the empty string. -/
def extractReferralLoop : List String → String
  | [] => ""
  | line0 :: rest =>
    let line := trimS line0
    let lower := toLowerS line
    if startsW lower "whois server:" || startsW lower "referral url:" || startsW lower "refer:" then
      match afterFirstColon line with
      | some after =>
        let server := trimS after
        let server := trimPre server "whois://"
        let server := trimPre server "http://"
        let server := trimPre server "https://"
        if server ≠ "" ∧ server ≠ "whois.iana.org" then server else extractReferralLoop rest
      | none => extractReferralLoop rest
    else extractReferralLoop rest

/-- Referral-server extraction from a response; the empty string means no
referral. -/
def extractReferralServer (response : String) : String :=
  extractReferralLoop (splitCharS response '\n')

/-- The basic email validity check: length between 3 and 254, exactly one at
sign, non-empty local and domain parts, a dot in the domain part. -/
def isValidEmail (email : String) : Bool :=
  if email.data.length < 3 || 254 < email.data.length then false
  else
    match splitCharS email '@' with
    | [lpart, dpart] =>
      if lpart.data.length == 0 || dpart.data.length == 0 then false
      else containsS dpart "."
    | _ => false

/-- The accumulator of the response parser: the result under construction plus
the local slices and the key sets of the two deduplication maps. -/
structure PAcc where
  res : WhoisResult
  nameServers : List String
  status : List String
  emails : List String
  emailSeen : List String
  nsSeen : List String

def stepRegistrar (a : PAcc) (line lower : String) : PAcc :=
  if a.res.registrar == "" &&
      (containsS lower "registrar:" || containsS lower "registrar name:") then
    match afterFirstColon line with
    | some after => { a with res := { a.res with registrar := trimS after } }
    | none => a
  else a

def stepCreated (a : PAcc) (line lower : String) : PAcc :=
  if a.res.createdDate == "" &&
      (containsS lower "creation date:" || containsS lower "created:" ||
        containsS lower "registered:") then
    match afterFirstColon line with
    | some after => { a with res := { a.res with createdDate := trimS after } }
    | none => a
  else a

def stepExpiry (a : PAcc) (line lower : String) : PAcc :=
  if a.res.expiryDate == "" &&
      (containsS lower "expiry date:" || containsS lower "expiration date:" ||
        containsS lower "expires:") then
    match afterFirstColon line with
    | some after => { a with res := { a.res with expiryDate := trimS after } }
    | none => a
  else a

def stepUpdated (a : PAcc) (line lower : String) : PAcc :=
  if a.res.updatedDate == "" &&
      (containsS lower "updated date:" || containsS lower "last updated:" ||
        containsS lower "modified:") then
    match afterFirstColon line with
    | some after => { a with res := { a.res with updatedDate := trimS after } }
    | none => a
  else a

def stepNameServers (a : PAcc) (line lower : String) : PAcc :=
  if containsS lower "name server:" || containsS lower "nserver:" ||
      containsS lower "nameserver:" then
    match afterFirstColon line with
    | some after =>
      let ns := goCutAtSpace (toLowerS (trimS after))
      if a.nsSeen.contains ns then a
      else { a with nameServers := a.nameServers ++ [ns], nsSeen := ns :: a.nsSeen }
    | none => a
  else a

def stepStatus (a : PAcc) (line lower : String) : PAcc :=
  if containsS lower "status:" || containsS lower "domain status:" then
    match afterFirstColon line with
    | some after =>
      let statusValue := trimS after
      if statusValue != "" then { a with status := a.status ++ [statusValue] } else a
    | none => a
  else a

def stepEmailWord (a : PAcc) (word : String) : PAcc :=
  if containsS word "@" && containsS word "." then
    let email := trimPunct word
    if !(a.emailSeen.contains email) && isValidEmail email then
      { a with emails := a.emails ++ [email], emailSeen := email :: a.emailSeen }
    else a
  else a

def stepEmails (a : PAcc) (line : String) : PAcc :=
  if containsS line "@" then List.foldl stepEmailWord a (fieldsS line) else a

/-- The per-line body of the parser on an already trimmed, non-skipped line,
in the order of the source: registrar, dates, name servers, status, emails. -/
def parseLineK (a : PAcc) (line : String) : PAcc :=
  let lower := toLowerS line
  stepEmails
    (stepStatus
      (stepNameServers
        (stepUpdated
          (stepExpiry
            (stepCreated
              (stepRegistrar a line lower) line lower) line lower) line lower) line lower)
      line lower)
    line

/-- One parser iteration: trim the line, skip blank and comment lines, then
run the per-line body. -/
def parseLine (a : PAcc) (line0 : String) : PAcc :=
  let line := trimS line0
  if line == "" || startsW line "%" || startsW line "#" then a
  else parseLineK a line

def pdIns (m : List (String × ParsedVal)) (k : String) (v : ParsedVal) :
    List (String × ParsedVal) :=
  goMapPut m k v

/-- The response parser: fold the per-line step over the split raw response,
store the accumulated slices, and mirror the structured fields into the
generic parsed-data map. -/
def parseResponse (result : WhoisResult) : WhoisResult :=
  let lines := splitCharS result.rawResponse '\n'
  let a := List.foldl parseLine
    { res := result, nameServers := [], status := [], emails := [], emailSeen := [], nsSeen := [] }
    lines
  let r := { a.res with nameServers := a.nameServers, status := a.status, emails := a.emails }
  let pd := pdIns r.parsedData "registrar" (ParsedVal.s r.registrar)
  let pd := pdIns pd "created_date" (ParsedVal.s r.createdDate)
  let pd := pdIns pd "expiry_date" (ParsedVal.s r.expiryDate)
  let pd := pdIns pd "updated_date" (ParsedVal.s r.updatedDate)
  let pd := pdIns pd "name_servers" (ParsedVal.l r.nameServers)
  let pd := pdIns pd "status" (ParsedVal.l r.status)
  let pd := pdIns pd "emails" (ParsedVal.l r.emails)
  { r with parsedData := pd }

/-- The network oracle standing for one WHOIS query over TCP: the response
text read until connection close, or a transport error. -/
abbrev Net : Type := String → WhoisServer → Except String String

/-- Input normalization at the head of Lookup: trim, lowercase, strip scheme
and www markers. -/
def normalizeDomain (domain0 : String) : String :=
  let domain := toLowerS (trimS domain0)
  let domain := trimPre domain "http://"
  let domain := trimPre domain "https://"
  trimPre domain "www."

/-- A result with every field empty. -/
def emptyResult : WhoisResult :=
  { domain := "", rawResponse := "", server := "", timestamp := 0, error := "",
    parsedData := [], registrar := "", createdDate := "", expiryDate := "",
    updatedDate := "", nameServers := [], status := [], emails := [] }

/-- The WHOIS lookup: resolve the server, run the primary query, optionally
follow one referral keeping the longer response, parse the retained response.
The timestamp is passed in for the wall-clock read; the context and deadline
plumbing is absorbed by the network oracle.  The second component models the
returned Go error. -/
def Lookup (c : Client) (net : Net) (now : Nat) (domain0 : String) :
    WhoisResult × Option String :=
  let domain := normalizeDomain domain0
  let result : WhoisResult := { emptyResult with domain := domain, timestamp := now }
  match getWhoisServer c.servers domain with
  | Except.error e => ({ result with error := e }, some e)
  | Except.ok server =>
    let result := { result with server := server.host ++ ":" ++ server.port }
    match net domain server with
    | Except.error e => ({ result with error := e }, some e)
    | Except.ok response =>
      let result := { result with rawResponse := response }
      let result :=
        if c.followReferral then
          let referralServer := extractReferralServer response
          if referralServer ≠ "" then
            match net domain { host := referralServer, port := "43" } with
            | Except.ok referralResponse =>
              if response.length < referralResponse.length then
                { result with rawResponse := referralResponse,
                              server := referralServer ++ ":43" }
              else result
            | Except.error _ => result
          else result
        else result
      (parseResponse result, none)

/- Specification-side definitions.  Each is a compositional restatement of a
claim of the specification, to be compared with the transliterated functions
above. -/

/-- A line as the extraction algorithm sees it: trimmed, with blank lines and
comment lines dropped. -/
def keptLine (line0 : String) : Option String :=
  let line := trimS line0
  if line == "" || startsW line "%" || startsW line "#" then none else some line

/-- The processed lines of a response. -/
def keptLines (raw : String) : List String :=
  (splitCharS raw '\n').filterMap keptLine

/-- Registrar value of one processed line, when its label set matches. -/
def regVal (line : String) : Option String :=
  let lower := toLowerS line
  if containsS lower "registrar:" || containsS lower "registrar name:" then
    (afterFirstColon line).map trimS
  else none

/-- Creation-date value of one processed line. -/
def createdVal (line : String) : Option String :=
  let lower := toLowerS line
  if containsS lower "creation date:" || containsS lower "created:" ||
      containsS lower "registered:" then
    (afterFirstColon line).map trimS
  else none

/-- Expiry-date value of one processed line. -/
def expiryVal (line : String) : Option String :=
  let lower := toLowerS line
  if containsS lower "expiry date:" || containsS lower "expiration date:" ||
      containsS lower "expires:" then
    (afterFirstColon line).map trimS
  else none

/-- Update-date value of one processed line. -/
def updatedVal (line : String) : Option String :=
  let lower := toLowerS line
  if containsS lower "updated date:" || containsS lower "last updated:" ||
      containsS lower "modified:" then
    (afterFirstColon line).map trimS
  else none

/-- Name-server value of one processed line: lowercased and cut at the first
space character. -/
def nsVal (line : String) : Option String :=
  let lower := toLowerS line
  if containsS lower "name server:" || containsS lower "nserver:" ||
      containsS lower "nameserver:" then
    (afterFirstColon line).map (fun after => goCutAtSpace (toLowerS (trimS after)))
  else none

/-- Name-server value as the claim words it: lowercased and truncated at the
first white-space run, not merely at a space character. -/
def nsValClaim (line : String) : Option String :=
  let lower := toLowerS line
  if containsS lower "name server:" || containsS lower "nserver:" ||
      containsS lower "nameserver:" then
    (afterFirstColon line).map
      (fun after => ⟨(toLowerS (trimS after)).data.takeWhile (fun c => !(isGoSpace c))⟩)
  else none

/-- Status value of one processed line: the trimmed text after the colon,
kept only when non-empty. -/
def statusVal (line : String) : Option String :=
  let lower := toLowerS line
  if containsS lower "status:" || containsS lower "domain status:" then
    match afterFirstColon line with
    | some after => let v := trimS after; if v == "" then none else some v
    | none => none
  else none

/-- Status value as the claim words it: every matching line contributes its
after-colon value, the empty value included. -/
def statusValClaim (line : String) : Option String :=
  let lower := toLowerS line
  if containsS lower "status:" || containsS lower "domain status:" then
    (afterFirstColon line).map trimS
  else none

/-- Email candidate of one word: punctuation-trimmed and validity-checked. -/
def wordCand (word : String) : Option String :=
  if containsS word "@" && containsS word "." then
    let email := trimPunct word
    if isValidEmail email then some email else none
  else none

/-- Email candidates of one processed line. -/
def emailCands (line : String) : List String :=
  if containsS line "@" then (fieldsS line).filterMap wordCand else []

/-- The first non-empty entry of a list of strings, or the empty string. -/
def firstNonempty : List String → String
  | [] => ""
  | v :: vs => if v == "" then firstNonempty vs else v

/-- First-seen-order deduplication of a stream against a set of already seen
values. -/
def dedupNew (seen : List String) : List String → List String
  | [] => []
  | v :: vs => if seen.contains v then dedupNew seen vs else v :: dedupNew (v :: seen) vs

/-- The seen set after consuming a stream. -/
def seenAfter (seen : List String) : List String → List String
  | [] => seen
  | v :: vs => if seen.contains v then seenAfter seen vs else seenAfter (v :: seen) vs

/-- Concatenation of the per-line candidate lists. -/
def listFlat (g : String → List String) : List String → List String
  | [] => []
  | l :: ls => g l ++ listFlat g ls

/-- Registrar as the claim states it: the first matching processed line with
a non-empty value wins. -/
def registrarSpecOf (raw : String) : String :=
  firstNonempty ((keptLines raw).filterMap regVal)

def createdSpecOf (raw : String) : String :=
  firstNonempty ((keptLines raw).filterMap createdVal)

def expirySpecOf (raw : String) : String :=
  firstNonempty ((keptLines raw).filterMap expiryVal)

def updatedSpecOf (raw : String) : String :=
  firstNonempty ((keptLines raw).filterMap updatedVal)

/-- Status list as the code keeps it: in order, not deduplicated, empty
values skipped. -/
def statusSpecOf (raw : String) : List String :=
  (keptLines raw).filterMap statusVal

/-- Status list as the claim words it: empty values included. -/
def statusClaimOf (raw : String) : List String :=
  (keptLines raw).filterMap statusValClaim

/-- Name-server list: per-line values deduplicated in first-seen order. -/
def nameServersSpecOf (raw : String) : List String :=
  dedupNew [] ((keptLines raw).filterMap nsVal)

/-- Name-server list as the claim words it, truncating at any white space. -/
def nsClaimOf (raw : String) : List String :=
  dedupNew [] ((keptLines raw).filterMap nsValClaim)

/-- Email list: all word candidates of processed lines, deduplicated in
first-seen order. -/
def emailsSpecOf (raw : String) : List String :=
  dedupNew [] (listFlat emailCands (keptLines raw))

/-- Referral candidate of one response line, as the claim describes it. -/
def referralCandidate (line0 : String) : Option String :=
  let line := trimS line0
  let lower := toLowerS line
  if startsW lower "whois server:" || startsW lower "referral url:" || startsW lower "refer:" then
    match afterFirstColon line with
    | some after =>
      let server := trimPre (trimPre (trimPre (trimS after) "whois://") "http://") "https://"
      if server ≠ "" ∧ server ≠ "whois.iana.org" then some server else none
    | none => none
  else none

/-- Referral extraction as the claim describes it: the first line with a
valid candidate, scanning in order. -/
def referralSpec (response : String) : Option String :=
  List.findSome? referralCandidate (splitCharS response '\n')

/-- Server resolution as the claim describes it: compound entry when at
least three labels and the entry exists, else the bare-TLD entry when it
exists, else the default entry; failure exactly below two labels. -/
def resolveSpec (dir : List (String × WhoisServer)) (domain : String) :
    Except String WhoisServer :=
  let labels := splitCharS domain '.'
  let compoundKey := joinDot (labels.drop (labels.length - 2))
  let tldKey := labels.getLastD ""
  if labels.length < 2 then Except.error ("invalid domain format: " ++ domain)
  else if 3 ≤ labels.length ∧ (List.lookup compoundKey dir).isSome then
    Except.ok ((List.lookup compoundKey dir).getD { host := "", port := "" })
  else if (List.lookup tldKey dir).isSome then
    Except.ok ((List.lookup tldKey dir).getD { host := "", port := "" })
  else Except.ok (goMapGet dir "default")

/- Fixtures for witnesses and counterexamples. -/

/-- A result that carries only a raw response. -/
def mkRawResult (raw : String) : WhoisResult := { emptyResult with rawResponse := raw }

/-- A client with the built-in directory, as construction with the default
configuration yields. -/
def simpleClient : Client :=
  { timeout := 10 * nsPerSecond, followReferral := true, servers := DefaultWhoisServers }

/-- A network on which every connection is refused. -/
def failNet : Net := fun _ _ => Except.error "connection refused"

/-- A network whose primary answer names a referral server that then refuses
the connection. -/
def wNet : Net := fun _ server =>
  if server.host = "whois.verisign-grs.com" then
    Except.ok "Whois Server: whois.fail.example\nRegistrar: Example Registrar"
  else Except.error "connection refused"

/-- A configuration with a zero timeout and one custom server entry. -/
def wConfig : Config :=
  { timeout := 0, followReferral := false,
    customServers := [("zz", { host := "whois.example", port := "43" })] }

/- Fold characterization of the parser. -/

/-- One scalar-field update: a first non-empty value fills the field. -/
def scalarUpd (cur : String) (v : Option String) : String :=
  if cur == "" then (match v with | some x => x | none => cur) else cur

/-- One deduplicating append on a pair of accumulated list and seen set. -/
def dedupStep (p : List String × List String) (v : String) : List String × List String :=
  if p.2.contains v then p else (p.1 ++ [v], v :: p.2)

/-- Deduplicating append of an optional value. -/
def optDedup (p : List String × List String) (v : Option String) : List String × List String :=
  match v with
  | some x => dedupStep p x
  | none => p

def scalFold (f : String → Option String) : String → List String → String
  | cur, [] => cur
  | cur, l :: ls => scalFold f (scalarUpd cur (f l)) ls

def pairFoldOpt (g : String → Option String) :
    List String × List String → List String → List String × List String
  | p, [] => p
  | p, l :: ls => pairFoldOpt g (optDedup p (g l)) ls

def pairFoldList (g : String → List String) :
    List String × List String → List String → List String × List String
  | p, [] => p
  | p, l :: ls => pairFoldList g (List.foldl dedupStep p (g l)) ls

def statFold : List String → List String → List String
  | st, [] => st
  | st, l :: ls => statFold (st ++ (statusVal l).toList) ls

theorem stepRegistrar_eq (a : PAcc) (line : String) :
    stepRegistrar a line (toLowerS line) =
      { a with res := { a.res with registrar := scalarUpd a.res.registrar (regVal line) } } := by
  simp only [stepRegistrar, regVal, scalarUpd]
  by_cases h1 : (a.res.registrar == "") = true <;>
    by_cases h2 : (containsS (toLowerS line) "registrar:" ||
      containsS (toLowerS line) "registrar name:") = true <;>
    cases hc : afterFirstColon line <;>
    simp [h1, h2, hc]

theorem stepCreated_eq (a : PAcc) (line : String) :
    stepCreated a line (toLowerS line) =
      { a with res := { a.res with createdDate := scalarUpd a.res.createdDate (createdVal line) } } := by
  simp only [stepCreated, createdVal, scalarUpd]
  by_cases h1 : (a.res.createdDate == "") = true <;>
    by_cases h2 : (containsS (toLowerS line) "creation date:" ||
      containsS (toLowerS line) "created:" || containsS (toLowerS line) "registered:") = true <;>
    cases hc : afterFirstColon line <;>
    simp [h1, h2, hc]

theorem stepExpiry_eq (a : PAcc) (line : String) :
    stepExpiry a line (toLowerS line) =
      { a with res := { a.res with expiryDate := scalarUpd a.res.expiryDate (expiryVal line) } } := by
  simp only [stepExpiry, expiryVal, scalarUpd]
  by_cases h1 : (a.res.expiryDate == "") = true <;>
    by_cases h2 : (containsS (toLowerS line) "expiry date:" ||
      containsS (toLowerS line) "expiration date:" || containsS (toLowerS line) "expires:") = true <;>
    cases hc : afterFirstColon line <;>
    simp [h1, h2, hc]

theorem stepUpdated_eq (a : PAcc) (line : String) :
    stepUpdated a line (toLowerS line) =
      { a with res := { a.res with updatedDate := scalarUpd a.res.updatedDate (updatedVal line) } } := by
  simp only [stepUpdated, updatedVal, scalarUpd]
  by_cases h1 : (a.res.updatedDate == "") = true <;>
    by_cases h2 : (containsS (toLowerS line) "updated date:" ||
      containsS (toLowerS line) "last updated:" || containsS (toLowerS line) "modified:") = true <;>
    cases hc : afterFirstColon line <;>
    simp [h1, h2, hc]

theorem stepNameServers_eq (a : PAcc) (line : String) :
    stepNameServers a line (toLowerS line) =
      { a with nameServers := (optDedup (a.nameServers, a.nsSeen) (nsVal line)).1,
               nsSeen := (optDedup (a.nameServers, a.nsSeen) (nsVal line)).2 } := by
  simp only [stepNameServers, nsVal, optDedup, dedupStep]
  by_cases h2 : (containsS (toLowerS line) "name server:" ||
      containsS (toLowerS line) "nserver:" || containsS (toLowerS line) "nameserver:") = true
  · cases hc : afterFirstColon line with
    | none => simp [h2, hc]
    | some after =>
      by_cases hseen : goCutAtSpace (toLowerS (trimS after)) ∈ a.nsSeen <;>
        simp [h2, hc, hseen]
  · simp [h2]

theorem stepStatus_eq (a : PAcc) (line : String) :
    stepStatus a line (toLowerS line) =
      { a with status := a.status ++ (statusVal line).toList } := by
  simp only [stepStatus, statusVal]
  by_cases h2 : (containsS (toLowerS line) "status:" ||
      containsS (toLowerS line) "domain status:") = true
  · cases hc : afterFirstColon line with
    | none => simp [h2, hc]
    | some after =>
      by_cases hv : trimS after = "" <;> simp [h2, hc, hv]
  · simp [h2]

theorem stepEmailWord_eq (a : PAcc) (word : String) :
    stepEmailWord a word =
      { a with emails := (optDedup (a.emails, a.emailSeen) (wordCand word)).1,
               emailSeen := (optDedup (a.emails, a.emailSeen) (wordCand word)).2 } := by
  simp only [stepEmailWord, wordCand, optDedup, dedupStep]
  by_cases h2 : (containsS word "@" && containsS word ".") = true
  · by_cases hval : isValidEmail (trimPunct word) = true
    · by_cases hseen : trimPunct word ∈ a.emailSeen <;> simp [h2, hval, hseen]
    · simp [h2, hval]
  · simp [h2]

theorem foldl_stepEmailWord (ws : List String) : ∀ a : PAcc,
    List.foldl stepEmailWord a ws =
      { a with emails := (List.foldl dedupStep (a.emails, a.emailSeen) (ws.filterMap wordCand)).1,
               emailSeen := (List.foldl dedupStep (a.emails, a.emailSeen) (ws.filterMap wordCand)).2 } := by
  induction ws with
  | nil => intro a; simp
  | cons w ws ih =>
    intro a
    rw [List.foldl_cons, ih (stepEmailWord a w), stepEmailWord_eq]
    cases hw : wordCand w with
    | none => simp [List.filterMap_cons, hw, optDedup]
    | some v => simp [List.filterMap_cons, hw, optDedup]

theorem stepEmails_eq (a : PAcc) (line : String) :
    stepEmails a line =
      { a with emails := (List.foldl dedupStep (a.emails, a.emailSeen) (emailCands line)).1,
               emailSeen := (List.foldl dedupStep (a.emails, a.emailSeen) (emailCands line)).2 } := by
  simp only [stepEmails, emailCands]
  by_cases h : containsS line "@" = true
  · simp only [h, if_true]
    exact foldl_stepEmailWord (fieldsS line) a
  · simp [h]

theorem parseLineK_eq (a : PAcc) (line : String) :
    parseLineK a line =
      { res := { a.res with
          registrar := scalarUpd a.res.registrar (regVal line),
          createdDate := scalarUpd a.res.createdDate (createdVal line),
          expiryDate := scalarUpd a.res.expiryDate (expiryVal line),
          updatedDate := scalarUpd a.res.updatedDate (updatedVal line) },
        nameServers := (optDedup (a.nameServers, a.nsSeen) (nsVal line)).1,
        nsSeen := (optDedup (a.nameServers, a.nsSeen) (nsVal line)).2,
        status := a.status ++ (statusVal line).toList,
        emails := (List.foldl dedupStep (a.emails, a.emailSeen) (emailCands line)).1,
        emailSeen := (List.foldl dedupStep (a.emails, a.emailSeen) (emailCands line)).2 } := by
  show stepEmails (stepStatus (stepNameServers (stepUpdated (stepExpiry (stepCreated
      (stepRegistrar a line (toLowerS line)) line (toLowerS line)) line (toLowerS line))
      line (toLowerS line)) line (toLowerS line)) line (toLowerS line)) line = _
  rw [stepRegistrar_eq, stepCreated_eq, stepExpiry_eq, stepUpdated_eq, stepNameServers_eq,
    stepStatus_eq, stepEmails_eq]

theorem foldl_parseLineK (ls : List String) : ∀ a : PAcc,
    List.foldl parseLineK a ls =
      { res := { a.res with
          registrar := scalFold regVal a.res.registrar ls,
          createdDate := scalFold createdVal a.res.createdDate ls,
          expiryDate := scalFold expiryVal a.res.expiryDate ls,
          updatedDate := scalFold updatedVal a.res.updatedDate ls },
        nameServers := (pairFoldOpt nsVal (a.nameServers, a.nsSeen) ls).1,
        nsSeen := (pairFoldOpt nsVal (a.nameServers, a.nsSeen) ls).2,
        status := statFold a.status ls,
        emails := (pairFoldList emailCands (a.emails, a.emailSeen) ls).1,
        emailSeen := (pairFoldList emailCands (a.emails, a.emailSeen) ls).2 } := by
  induction ls with
  | nil => intro a; simp [scalFold, pairFoldOpt, pairFoldList, statFold]
  | cons l ls ih =>
    intro a
    rw [List.foldl_cons, ih (parseLineK a l), parseLineK_eq]
    simp only [scalFold, pairFoldOpt, pairFoldList, statFold]

theorem scalFold_closed (f : String → Option String) (ls : List String) : ∀ cur : String,
    scalFold f cur ls = if cur == "" then firstNonempty (ls.filterMap f) else cur := by
  induction ls with
  | nil =>
    intro cur
    by_cases h : (cur == "") = true
    · simp only [scalFold, h, if_true, List.filterMap_nil, firstNonempty]
      exact eq_of_beq h
    · simp [scalFold, h]
  | cons l ls ih =>
    intro cur
    rw [show scalFold f cur (l :: ls) = scalFold f (scalarUpd cur (f l)) ls from rfl, ih]
    by_cases h : (cur == "") = true
    · have hcur : cur = "" := eq_of_beq h
      cases hf : f l with
      | none => simp [scalarUpd, h, hf, List.filterMap_cons, hcur]
      | some x =>
        by_cases hx : (x == "") = true
        · have hxx : x = "" := eq_of_beq hx
          simp [scalarUpd, h, hf, List.filterMap_cons, firstNonempty, hx, hxx]
        · simp [scalarUpd, h, hf, List.filterMap_cons, firstNonempty, hx]
    · simp [scalarUpd, h]

theorem statFold_closed (ls : List String) : ∀ st : List String,
    statFold st ls = st ++ ls.filterMap statusVal := by
  induction ls with
  | nil => intro st; simp [statFold]
  | cons l ls ih =>
    intro st
    rw [show statFold st (l :: ls) = statFold (st ++ (statusVal l).toList) ls from rfl, ih]
    cases hl : statusVal l <;> simp [List.filterMap_cons, hl]

theorem foldl_dedupStep (vs : List String) : ∀ p : List String × List String,
    List.foldl dedupStep p vs = (p.1 ++ dedupNew p.2 vs, seenAfter p.2 vs) := by
  induction vs with
  | nil => intro p; simp [dedupNew, seenAfter]
  | cons v vs ih =>
    intro p
    rw [List.foldl_cons, ih (dedupStep p v)]
    by_cases h : v ∈ p.2
    · simp [dedupStep, dedupNew, seenAfter, h]
    · simp [dedupStep, dedupNew, seenAfter, h]

theorem pairFoldOpt_eq (g : String → Option String) (ls : List String) :
    ∀ p : List String × List String,
    pairFoldOpt g p ls = List.foldl dedupStep p (ls.filterMap g) := by
  induction ls with
  | nil => intro p; simp [pairFoldOpt]
  | cons l ls ih =>
    intro p
    rw [show pairFoldOpt g p (l :: ls) = pairFoldOpt g (optDedup p (g l)) ls from rfl, ih]
    cases hl : g l <;> simp [optDedup, List.filterMap_cons, hl]

theorem pairFoldList_eq (g : String → List String) (ls : List String) :
    ∀ p : List String × List String,
    pairFoldList g p ls = List.foldl dedupStep p (listFlat g ls) := by
  induction ls with
  | nil => intro p; simp [pairFoldList, listFlat]
  | cons l ls ih =>
    intro p
    rw [show pairFoldList g p (l :: ls) = pairFoldList g (List.foldl dedupStep p (g l)) ls from rfl,
      ih, show listFlat g (l :: ls) = g l ++ listFlat g ls from rfl, List.foldl_append]

theorem parseLine_eq (a : PAcc) (line0 : String) :
    parseLine a line0 =
      match keptLine line0 with
      | none => a
      | some line => parseLineK a line := by
  simp only [parseLine, keptLine]
  by_cases h : (trimS line0 == "" || startsW (trimS line0) "%" || startsW (trimS line0) "#") = true <;>
    simp [h]

theorem foldl_parseLine_kept (ls : List String) : ∀ a : PAcc,
    List.foldl parseLine a ls = List.foldl parseLineK a (ls.filterMap keptLine) := by
  induction ls with
  | nil => intro a; rfl
  | cons l ls ih =>
    intro a
    rw [List.foldl_cons, parseLine_eq]
    cases hl : keptLine l with
    | none => simp [List.filterMap_cons, hl, ih]
    | some k => simp [List.filterMap_cons, hl, List.foldl_cons, ih]

theorem parseResponse_acc (res : WhoisResult) :
    parseResponse res =
      (let kept := keptLines res.rawResponse
       let r := { res with
          registrar := scalFold regVal res.registrar kept,
          createdDate := scalFold createdVal res.createdDate kept,
          expiryDate := scalFold expiryVal res.expiryDate kept,
          updatedDate := scalFold updatedVal res.updatedDate kept,
          nameServers := (pairFoldOpt nsVal ([], []) kept).1,
          status := statFold [] kept,
          emails := (pairFoldList emailCands ([], []) kept).1 }
       let pd := pdIns r.parsedData "registrar" (ParsedVal.s r.registrar)
       let pd := pdIns pd "created_date" (ParsedVal.s r.createdDate)
       let pd := pdIns pd "expiry_date" (ParsedVal.s r.expiryDate)
       let pd := pdIns pd "updated_date" (ParsedVal.s r.updatedDate)
       let pd := pdIns pd "name_servers" (ParsedVal.l r.nameServers)
       let pd := pdIns pd "status" (ParsedVal.l r.status)
       let pd := pdIns pd "emails" (ParsedVal.l r.emails)
       { r with parsedData := pd }) := by
  unfold parseResponse
  simp only [foldl_parseLine_kept, foldl_parseLineK]
  rfl

theorem parseResponse_registrar (res : WhoisResult) :
    (parseResponse res).registrar =
      if res.registrar = "" then registrarSpecOf res.rawResponse else res.registrar := by
  rw [parseResponse_acc]
  simp only [registrarSpecOf, keptLines]
  rw [scalFold_closed]
  by_cases h : res.registrar = "" <;> simp [h]

theorem parseResponse_created (res : WhoisResult) :
    (parseResponse res).createdDate =
      if res.createdDate = "" then createdSpecOf res.rawResponse else res.createdDate := by
  rw [parseResponse_acc]
  simp only [createdSpecOf, keptLines]
  rw [scalFold_closed]
  by_cases h : res.createdDate = "" <;> simp [h]

theorem parseResponse_expiry (res : WhoisResult) :
    (parseResponse res).expiryDate =
      if res.expiryDate = "" then expirySpecOf res.rawResponse else res.expiryDate := by
  rw [parseResponse_acc]
  simp only [expirySpecOf, keptLines]
  rw [scalFold_closed]
  by_cases h : res.expiryDate = "" <;> simp [h]

theorem parseResponse_updated (res : WhoisResult) :
    (parseResponse res).updatedDate =
      if res.updatedDate = "" then updatedSpecOf res.rawResponse else res.updatedDate := by
  rw [parseResponse_acc]
  simp only [updatedSpecOf, keptLines]
  rw [scalFold_closed]
  by_cases h : res.updatedDate = "" <;> simp [h]

theorem parseResponse_status (res : WhoisResult) :
    (parseResponse res).status = statusSpecOf res.rawResponse := by
  rw [parseResponse_acc]
  simp only [statusSpecOf, keptLines]
  rw [statFold_closed]
  simp

theorem parseResponse_nameServers (res : WhoisResult) :
    (parseResponse res).nameServers = nameServersSpecOf res.rawResponse := by
  rw [parseResponse_acc]
  simp only [nameServersSpecOf, keptLines]
  rw [pairFoldOpt_eq, foldl_dedupStep]
  simp [seenAfter]

theorem parseResponse_emails (res : WhoisResult) :
    (parseResponse res).emails = emailsSpecOf res.rawResponse := by
  rw [parseResponse_acc]
  simp only [emailsSpecOf, keptLines]
  rw [pairFoldList_eq, foldl_dedupStep]
  simp [seenAfter]

theorem parseResponse_domain (res : WhoisResult) :
    (parseResponse res).domain = res.domain := by
  rw [parseResponse_acc]

theorem parseResponse_server (res : WhoisResult) :
    (parseResponse res).server = res.server := by
  rw [parseResponse_acc]

theorem parseResponse_rawResponse (res : WhoisResult) :
    (parseResponse res).rawResponse = res.rawResponse := by
  rw [parseResponse_acc]

theorem parseResponse_timestamp (res : WhoisResult) :
    (parseResponse res).timestamp = res.timestamp := by
  rw [parseResponse_acc]

theorem parseResponse_error (res : WhoisResult) :
    (parseResponse res).error = res.error := by
  rw [parseResponse_acc]

theorem extractReferralLoop_cons (l : String) (rest : List String) :
    extractReferralLoop (l :: rest) =
      match referralCandidate l with
      | some s => s
      | none => extractReferralLoop rest := by
  simp only [extractReferralLoop, referralCandidate]
  split
  · split
    · split
      · rfl
      · rfl
    · rfl
  · rfl

theorem extractReferralLoop_eq (ls : List String) :
    extractReferralLoop ls = (List.findSome? referralCandidate ls).getD "" := by
  induction ls with
  | nil => rfl
  | cons l rest ih =>
    rw [extractReferralLoop_cons, List.findSome?_cons]
    cases referralCandidate l with
    | some s => rfl
    | none => exact ih

/- Directory-resolution helpers. -/

theorem getWhoisServer_eq_resolveSpec (dir : List (String × WhoisServer)) (domain : String) :
    getWhoisServer dir domain = resolveSpec dir domain := by
  unfold getWhoisServer resolveSpec
  by_cases hlen : (splitCharS domain '.').length < 2
  · simp [hlen]
  · by_cases h3 : 3 ≤ (splitCharS domain '.').length
    · cases hc : List.lookup (joinDot ((splitCharS domain '.').drop ((splitCharS domain '.').length - 2))) dir with
      | some s => simp [hlen, h3, hc]
      | none =>
        cases ht : List.lookup ((splitCharS domain '.').getLastD "") dir with
        | some s =>
          simp only [List.getLastD_eq_getLast?] at ht
          simp [hlen, h3, hc, ht]
        | none =>
          simp only [List.getLastD_eq_getLast?] at ht
          simp [hlen, h3, hc, ht]
    · cases ht : List.lookup ((splitCharS domain '.').getLastD "") dir with
      | some s =>
        simp only [List.getLastD_eq_getLast?] at ht
        simp [hlen, h3, ht]
      | none =>
        simp only [List.getLastD_eq_getLast?] at ht
        simp [hlen, h3, ht]

theorem getWhoisServer_err_iff (dir : List (String × WhoisServer)) (domain : String) :
    (∃ e, getWhoisServer dir domain = Except.error e) ↔ (splitCharS domain '.').length < 2 := by
  unfold getWhoisServer
  by_cases hlen : (splitCharS domain '.').length < 2
  · simp [hlen]
  · simp only [hlen, if_false, iff_false]
    rintro ⟨e, he⟩
    cases hc : (if 3 ≤ (splitCharS domain '.').length then
        List.lookup (joinDot ((splitCharS domain '.').drop ((splitCharS domain '.').length - 2))) dir
      else none) with
    | some s => simp [hc] at he
    | none =>
      cases ht : List.lookup ((splitCharS domain '.').getLast?.getD "") dir with
      | some s => simp [List.getLastD_eq_getLast?, hc, ht] at he
      | none => simp [List.getLastD_eq_getLast?, hc, ht] at he

/-- Claim C1: server resolution prefers a compound-TLD entry when the domain
has at least three labels and such an entry exists, then the bare TLD entry,
then the default entry, and fails exactly when the domain has fewer than two
dot-separated labels.  Stated as equivalence with the claim-side resolver over
every directory, the exact failure condition, and the branch cases on the
built-in directory. -/
theorem claim_C1_server_resolution :
    (∀ dir domain, getWhoisServer dir domain = resolveSpec dir domain) ∧
    (∀ dir domain,
      (∃ e, getWhoisServer dir domain = Except.error e) ↔ (splitCharS domain '.').length < 2) ∧
    getWhoisServer DefaultWhoisServers "example.co.uk" =
      Except.ok { host := "whois.nic.uk", port := "43" } ∧
    getWhoisServer DefaultWhoisServers "example.com" =
      Except.ok { host := "whois.verisign-grs.com", port := "43" } ∧
    getWhoisServer DefaultWhoisServers "example.zz" =
      Except.ok { host := "whois.iana.org", port := "43" } ∧
    getWhoisServer DefaultWhoisServers "justonelabel" =
      Except.error "invalid domain format: justonelabel" :=
  ⟨getWhoisServer_eq_resolveSpec, getWhoisServer_err_iff, rfl, rfl, rfl, rfl⟩

/-- Claim C3: referral extraction scans lines in order for the three labels,
takes the text after the first colon, trims white space and scheme markers,
rejects empty candidates and the root server hostname, and yields the first
valid candidate; stated as equivalence with the claim-side scan plus the
concrete vectors of the specification. -/
theorem claim_C3_referral_extraction :
    (∀ response, extractReferralServer response = (referralSpec response).getD "") ∧
    extractReferralServer "Whois Server: whois.example.com" = "whois.example.com" ∧
    extractReferralServer "Referral URL: whois://whois.example.com" = "whois.example.com" ∧
    extractReferralServer "Domain Name: EXAMPLE.COM\nRegistrar: Example" = "" ∧
    extractReferralServer "refer: whois.iana.org" = "" :=
  ⟨fun response => extractReferralLoop_eq (splitCharS response '\n'), rfl, rfl, rfl, rfl⟩

/-- Claim C5 counterexample: a matching line whose after-colon value is empty
is skipped by the code, while the claim has every matching line contribute its
value; on the response with a bare status label and one valued status line the
code keeps one entry where the claim predicts two. -/
theorem claim_C5_counterexample :
    (parseResponse (mkRawResult "Status:\nStatus: ok")).status = ["ok"] ∧
    statusClaimOf "Status:\nStatus: ok" = ["", "ok"] ∧
    (parseResponse (mkRawResult "Status:\nStatus: ok")).status ≠
      statusClaimOf "Status:\nStatus: ok" :=
  ⟨rfl, rfl, by decide⟩

/-- Claim C5 as amended: every non-blank, non-comment line matching the
status label set contributes its trimmed after-colon value when that value is
non-empty, appended without deduplication in line order. -/
theorem claim_C5_status (res : WhoisResult) :
    (parseResponse res).status = statusSpecOf res.rawResponse :=
  parseResponse_status res

/-- Claim C6 counterexample: the code truncates a name-server value only at a
space character, while the claim truncates at the first white-space run; a
value containing a tab keeps its tail in the code and loses it under the
claim. -/
theorem claim_C6_counterexample :
    (parseResponse (mkRawResult "Name Server: ns1.foo\textra")).nameServers =
      ["ns1.foo\textra"] ∧
    nsClaimOf "Name Server: ns1.foo\textra" = ["ns1.foo"] ∧
    (parseResponse (mkRawResult "Name Server: ns1.foo\textra")).nameServers ≠
      nsClaimOf "Name Server: ns1.foo\textra" :=
  ⟨rfl, rfl, by decide⟩

/-- Claim C6 as amended: each line matching the name-server label set yields
its after-colon value lowercased and truncated at the first space character
(other white space does not truncate), and the list is deduplicated by exact
value in first-seen order. -/
theorem claim_C6_nameServers (res : WhoisResult) :
    (parseResponse res).nameServers = nameServersSpecOf res.rawResponse :=
  parseResponse_nameServers res

/-- Claim C7: emails are gathered from the white-space tokens of processed
lines containing an at sign, punctuation-trimmed, validated (length 3 to 254,
exactly one at sign, non-empty parts, dotted domain part) and deduplicated in
first-seen order; together with the accept and reject vectors of the
specification. -/
theorem claim_C7_emails :
    (∀ res : WhoisResult, (parseResponse res).emails = emailsSpecOf res.rawResponse) ∧
    wordCand "test@example.com" = some "test@example.com" ∧
    wordCand "test@mail.example.com" = some "test@mail.example.com" ∧
    wordCand "testexample.com" = none ∧
    wordCand "test@" = none ∧
    wordCand "@example.com" = none ∧
    wordCand "test@example" = none ∧
    wordCand "a@" = none :=
  ⟨parseResponse_emails, rfl, rfl, rfl, rfl, rfl, rfl, rfl⟩

/-- Claim C8: scalar extraction proceeds line by line over trimmed lines,
skipping blanks and comment lines; each scalar field is filled by the first
matching line of its label set that carries a non-empty trimmed value, and
matching lines for an already-filled field are ignored. -/
theorem claim_C8_scalar_fields (res : WhoisResult) :
    (parseResponse res).registrar =
      (if res.registrar = "" then registrarSpecOf res.rawResponse else res.registrar) ∧
    (parseResponse res).createdDate =
      (if res.createdDate = "" then createdSpecOf res.rawResponse else res.createdDate) ∧
    (parseResponse res).expiryDate =
      (if res.expiryDate = "" then expirySpecOf res.rawResponse else res.expiryDate) ∧
    (parseResponse res).updatedDate =
      (if res.updatedDate = "" then updatedSpecOf res.rawResponse else res.updatedDate) :=
  ⟨parseResponse_registrar res, parseResponse_created res, parseResponse_expiry res,
    parseResponse_updated res⟩

/- String append associativity, needed to relate the two spellings of the
host-and-port string. -/

theorem strAppend_assoc (a b c : String) : a ++ b ++ c = a ++ (b ++ c) := by
  cases a with | mk la =>
  cases b with | mk lb =>
  cases c with | mk lc =>
  show String.mk ((la ++ lb) ++ lc) = String.mk (la ++ (lb ++ lc))
  rw [List.append_assoc]

/-- Claim C2: after a successful primary query the lookup reports no error,
and the retained response and server are replaced by the referral data
exactly when referral following is on, a referral host was extracted, the
referral query on port 43 succeeds, and the referral response is strictly
longer; in every other case, a referral failure included, the primary
response and server are retained unchanged. -/
theorem claim_C2_referral_policy (c : Client) (net : Net) (now : Nat) (d : String)
    (srv : WhoisServer) (resp : String)
    (hs : getWhoisServer c.servers (normalizeDomain d) = Except.ok srv)
    (hq : net (normalizeDomain d) srv = Except.ok resp) :
    (Lookup c net now d).2 = none ∧
    (Lookup c net now d).1.error = "" ∧
    (∀ rr, c.followReferral = true → extractReferralServer resp ≠ "" →
      net (normalizeDomain d) { host := extractReferralServer resp, port := "43" } = Except.ok rr →
      resp.length < rr.length →
      (Lookup c net now d).1.rawResponse = rr ∧
      (Lookup c net now d).1.server = extractReferralServer resp ++ ":43") ∧
    ((c.followReferral = false ∨ extractReferralServer resp = "" ∨
        (∃ e, net (normalizeDomain d) { host := extractReferralServer resp, port := "43" } =
          Except.error e) ∨
        (∀ rr, net (normalizeDomain d) { host := extractReferralServer resp, port := "43" } =
          Except.ok rr → rr.length ≤ resp.length)) →
      (Lookup c net now d).1.rawResponse = resp ∧
      (Lookup c net now d).1.server = srv.host ++ ":" ++ srv.port) := by
  cases hF : c.followReferral with
  | false =>
    simp only [Lookup, hs, hq, hF, if_false, Bool.false_eq_true, false_and]
    refine ⟨by trivial, ?_, ?_, ?_⟩
    · rw [parseResponse_error]; rfl
    · intro rr hf
      cases hf
    · intro _
      exact ⟨by rw [parseResponse_rawResponse], by rw [parseResponse_server]⟩
  | true =>
    by_cases hE : extractReferralServer resp = ""
    · simp only [Lookup, hs, hq, hF, if_true, hE, ne_eq, not_true_eq_false, if_false]
      refine ⟨by trivial, ?_, ?_, ?_⟩
      · rw [parseResponse_error]; rfl
      · intro rr _ hne
        simp [hE] at hne
      · intro _
        exact ⟨by rw [parseResponse_rawResponse], by rw [parseResponse_server]⟩
    · cases hN : net (normalizeDomain d) { host := extractReferralServer resp, port := "43" } with
      | error e =>
        simp only [Lookup, hs, hq, hF, if_true, hE, hN, ne_eq, not_false_eq_true, if_true]
        refine ⟨by trivial, ?_, ?_, ?_⟩
        · rw [parseResponse_error]; rfl
        · intro rr _ _ hok
          cases hok
        · intro _
          exact ⟨by rw [parseResponse_rawResponse], by rw [parseResponse_server]⟩
      | ok rr0 =>
        by_cases hL : resp.length < rr0.length
        · simp only [Lookup, hs, hq, hF, if_true, hE, hN, hL, ne_eq, not_false_eq_true, if_true]
          refine ⟨by trivial, ?_, ?_, ?_⟩
          · rw [parseResponse_error]; rfl
          · intro rr _ _ hok hlt
            cases hok
            exact ⟨by rw [parseResponse_rawResponse], by rw [parseResponse_server]⟩
          · intro hdisj
            rcases hdisj with hf | he | ⟨e, hne⟩ | hall
            · cases hf
            · exact absurd he (fun hh => hh)
            · cases hne
            · exact absurd (hall rr0 rfl) (not_le.mpr hL)
        · simp only [Lookup, hs, hq, hF, if_true, hE, hN, hL, ne_eq, not_false_eq_true, if_true,
            if_false]
          refine ⟨by trivial, ?_, ?_, ?_⟩
          · rw [parseResponse_error]; rfl
          · intro rr _ _ hok hlt
            cases hok
            exact absurd hlt hL
          · intro _
            exact ⟨by rw [parseResponse_rawResponse], by rw [parseResponse_server]⟩

/-- Witness for claim C2 at a concrete client and network: a referral host is
extracted from the primary response but its query is refused, so the primary
data is retained and no error is reported. -/
theorem claim_C2_witness :
    (Lookup simpleClient wNet 0 "example.com").2 = none ∧
    (Lookup simpleClient wNet 0 "example.com").1.rawResponse =
      "Whois Server: whois.fail.example\nRegistrar: Example Registrar" := by
  have h := claim_C2_referral_policy simpleClient wNet 0 "example.com"
    { host := "whois.verisign-grs.com", port := "43" }
    "Whois Server: whois.fail.example\nRegistrar: Example Registrar" rfl rfl
  exact ⟨h.1, (h.2.2.2 (Or.inr (Or.inr (Or.inl ⟨"connection refused", rfl⟩)))).1⟩

/-- Claim C4 counterexample: on a transport failure the result is not empty
beside domain, timestamp and error: the server field names the server that
was attempted. -/
theorem claim_C4_counterexample :
    (Lookup simpleClient failNet 0 "example.com").2.isSome = true ∧
    (Lookup simpleClient failNet 0 "example.com").1.error = "connection refused" ∧
    (Lookup simpleClient failNet 0 "example.com").1.server = "whois.verisign-grs.com:43" ∧
    ¬ (Lookup simpleClient failNet 0 "example.com").1.server = "" :=
  ⟨rfl, rfl, rfl, by decide⟩

/-- Claim C4 as amended: a lookup always yields a result value; on failure it
carries the normalized domain, the timestamp and the error, the raw response
and every parsed field are empty, and the server field is empty on a
malformed domain while on a transport failure it names the selected
server. -/
theorem claim_C4_failure_shape (c : Client) (net : Net) (now : Nat) (d : String)
    (h : (Lookup c net now d).2.isSome = true) :
    (Lookup c net now d).1.domain = normalizeDomain d ∧
    (Lookup c net now d).1.timestamp = now ∧
    (Lookup c net now d).2 = some (Lookup c net now d).1.error ∧
    (Lookup c net now d).1.rawResponse = "" ∧
    (Lookup c net now d).1.registrar = "" ∧
    (Lookup c net now d).1.createdDate = "" ∧
    (Lookup c net now d).1.expiryDate = "" ∧
    (Lookup c net now d).1.updatedDate = "" ∧
    (Lookup c net now d).1.nameServers = [] ∧
    (Lookup c net now d).1.status = [] ∧
    (Lookup c net now d).1.emails = [] ∧
    (Lookup c net now d).1.parsedData = [] ∧
    (∀ e, getWhoisServer c.servers (normalizeDomain d) = Except.error e →
      (Lookup c net now d).1.server = "") ∧
    (∀ srv, getWhoisServer c.servers (normalizeDomain d) = Except.ok srv →
      (Lookup c net now d).1.server = srv.host ++ ":" ++ srv.port) := by
  cases hg : getWhoisServer c.servers (normalizeDomain d) with
  | error e =>
    simp only [Lookup, hg]
    exact ⟨by trivial, by trivial, by trivial, by trivial, by trivial, by trivial, by trivial,
      by trivial, by trivial, by trivial, by trivial, by trivial, fun e' _ => by trivial,
      fun srv hsrv => nomatch hsrv⟩
  | ok srv =>
    cases hn : net (normalizeDomain d) srv with
    | error e =>
      simp only [Lookup, hg, hn]
      refine ⟨by trivial, by trivial, by trivial, by trivial, by trivial, by trivial, by trivial,
        by trivial, by trivial, by trivial, by trivial, by trivial, ?_, ?_⟩
      · intro e' he'
        cases he'
      · intro srv' hsrv'
        cases hsrv'
        rfl
    | ok resp =>
      simp only [Lookup, hg, hn] at h
      simp at h

/-- Witness for the amended claim C4 at a concrete failing network. -/
theorem claim_C4_witness :
    (Lookup simpleClient failNet 0 "example.com").1.domain = "example.com" ∧
    (Lookup simpleClient failNet 0 "example.com").1.rawResponse = "" := by
  have h := claim_C4_failure_shape simpleClient failNet 0 "example.com" rfl
  exact ⟨h.1.trans rfl, h.2.2.2.1⟩

set_option maxHeartbeats 1600000 in
/-- Claim C9: on a successful lookup the raw response is the text some
queried server returned, the server field names that server, and the whole
result equals the parse of its own retained raw response, so every
structured field derives from the retained response. -/
theorem claim_C9_retained_invariant (c : Client) (net : Net) (now : Nat) (d : String)
    (h : (Lookup c net now d).2 = none) :
    (∃ srv : WhoisServer,
      net (normalizeDomain d) srv = Except.ok (Lookup c net now d).1.rawResponse ∧
      (Lookup c net now d).1.server = srv.host ++ ":" ++ srv.port) ∧
    (Lookup c net now d).1 =
      parseResponse { emptyResult with
        domain := normalizeDomain d, timestamp := now,
        server := (Lookup c net now d).1.server,
        rawResponse := (Lookup c net now d).1.rawResponse } := by
  cases hg : getWhoisServer c.servers (normalizeDomain d) with
  | error e => simp [Lookup, hg] at h
  | ok srv =>
    cases hn : net (normalizeDomain d) srv with
    | error e => simp [Lookup, hg, hn] at h
    | ok resp =>
      cases hF : c.followReferral with
      | false =>
        simp only [Lookup, hg, hn, hF, Bool.false_eq_true, if_false]
        refine ⟨⟨srv, ?_, by rw [parseResponse_server]⟩, ?_⟩
        · rw [parseResponse_rawResponse]
          exact hn
        · rw [parseResponse_rawResponse, parseResponse_server]
      | true =>
        by_cases hE : extractReferralServer resp = ""
        · simp only [Lookup, hg, hn, hF, if_true, hE, ne_eq, not_true_eq_false, if_false]
          refine ⟨⟨srv, ?_, by rw [parseResponse_server]⟩, ?_⟩
          · rw [parseResponse_rawResponse]
            exact hn
          · rw [parseResponse_rawResponse, parseResponse_server]
        · cases hN : net (normalizeDomain d) { host := extractReferralServer resp, port := "43" } with
          | error e =>
            simp only [Lookup, hg, hn, hF, if_true, hE, hN, ne_eq, not_false_eq_true, if_true]
            refine ⟨⟨srv, ?_, by rw [parseResponse_server]⟩, ?_⟩
            · rw [parseResponse_rawResponse]
              exact hn
            · rw [parseResponse_rawResponse, parseResponse_server]
          | ok rr0 =>
            by_cases hL : resp.length < rr0.length
            · simp only [Lookup, hg, hn, hF, if_true, hE, hN, hL, ne_eq, not_false_eq_true,
                if_true]
              refine ⟨⟨{ host := extractReferralServer resp, port := "43" }, ?_, ?_⟩, ?_⟩
              · rw [parseResponse_rawResponse]
                exact hN
              · rw [parseResponse_server]
                exact (strAppend_assoc (extractReferralServer resp) ":" "43").symm ▸ rfl
              · rw [parseResponse_rawResponse, parseResponse_server]
            · simp only [Lookup, hg, hn, hF, if_true, hE, hN, hL, ne_eq, not_false_eq_true,
                if_true, if_false]
              refine ⟨⟨srv, ?_, by rw [parseResponse_server]⟩, ?_⟩
              · rw [parseResponse_rawResponse]
                exact hn
              · rw [parseResponse_rawResponse, parseResponse_server]

/-- Witness for claim C9 at a concrete client and network. -/
theorem claim_C9_witness :
    (Lookup simpleClient wNet 0 "example.com").1 =
      parseResponse { emptyResult with
        domain := normalizeDomain "example.com", timestamp := 0,
        server := (Lookup simpleClient wNet 0 "example.com").1.server,
        rawResponse := (Lookup simpleClient wNet 0 "example.com").1.rawResponse } :=
  (claim_C9_retained_invariant simpleClient wNet 0 "example.com" rfl).2

/- Association-list lemmas for the Go map model. -/

theorem lookup_filter_ne {β : Type} (m : List (String × β)) (k a : String) (h : ¬ k = a) :
    List.lookup k (m.filter (fun p => !(p.1 == a))) = List.lookup k m := by
  induction m with
  | nil => rfl
  | cons x m ih =>
    obtain ⟨x1, x2⟩ := x
    by_cases hx : x1 = a
    · subst hx
      have hk : (k == x1) = false := beq_eq_false_iff_ne.mpr h
      simp only [List.filter_cons, beq_self_eq_true, Bool.not_true, Bool.false_eq_true, if_false]
      rw [ih, List.lookup]
      simp [hk]
    · have hkeep : (!(x1 == a)) = true := by simp [hx]
      simp only [List.filter_cons, hkeep, if_true]
      rw [List.lookup, List.lookup]
      cases hkx : k == x1 <;> simp [ih]

theorem lookup_goMapPut {β : Type} (m : List (String × β)) (k a : String) (v : β) :
    List.lookup k (goMapPut m a v) = if k = a then some v else List.lookup k m := by
  by_cases h : k = a
  · subst h
    simp [goMapPut, List.lookup]
  · simp only [goMapPut, List.lookup, beq_eq_false_iff_ne.mpr h, h, if_false]
    exact lookup_filter_ne m k a h

theorem lookup_none_of_not_mem {β : Type} (l : List (String × β)) (k : String)
    (h : k ∉ l.map Prod.fst) : List.lookup k l = none := by
  induction l with
  | nil => rfl
  | cons x l ih =>
    simp only [List.map_cons, List.mem_cons, not_or] at h
    rw [List.lookup]
    simp only [beq_eq_false_iff_ne.mpr h.1]
    exact ih h.2

theorem lookup_foldl_put {β : Type} (l : List (String × β)) :
    ∀ (m : List (String × β)) (k : String), (l.map Prod.fst).Nodup →
    List.lookup k (List.foldl (fun acc p => goMapPut acc p.1 p.2) m l) =
      (List.lookup k l).or (List.lookup k m) := by
  induction l with
  | nil =>
    intro m k _
    simp
  | cons x l ih =>
    intro m k hnd
    obtain ⟨x1, x2⟩ := x
    rw [List.foldl_cons]
    have hnd2 : x1 ∉ l.map Prod.fst ∧ (l.map Prod.fst).Nodup := by
      rw [List.map_cons] at hnd
      exact List.nodup_cons.mp hnd
    rw [ih (goMapPut m x1 x2) k hnd2.2, lookup_goMapPut]
    by_cases hk : k = x1
    · subst hk
      rw [lookup_none_of_not_mem l k hnd2.1]
      simp [List.lookup]
    · rw [List.lookup]
      simp only [beq_eq_false_iff_ne.mpr hk, hk, if_false]

/-- Claim C10: construction always yields a client and no error; a missing
configuration is replaced by the default one, a zero timeout by ten seconds,
and the client directory behaves as the built-in table overridden by the
caller entries. -/
theorem claim_C10_construction (config? : Option Config)
    (hnd : ((config?.getD DefaultConfig).customServers.map Prod.fst).Nodup) :
    (NewClient config?).2 = none ∧
    NewClient none = NewClient (some DefaultConfig) ∧
    (NewClient config?).1.timeout =
      (if (config?.getD DefaultConfig).timeout = 0 then 10 * nsPerSecond
       else (config?.getD DefaultConfig).timeout) ∧
    (NewClient config?).1.followReferral = (config?.getD DefaultConfig).followReferral ∧
    (∀ k, List.lookup k (NewClient config?).1.servers =
      (List.lookup k (config?.getD DefaultConfig).customServers).or
        (List.lookup k DefaultWhoisServers)) := by
  have hdefnd : (DefaultWhoisServers.map Prod.fst).Nodup := by decide
  cases config? with
  | none =>
    refine ⟨rfl, rfl, by decide, rfl, fun k => ?_⟩
    show List.lookup k (List.foldl (fun m p => goMapPut m p.1 p.2)
      (List.foldl (fun m p => goMapPut m p.1 p.2) [] DefaultWhoisServers)
      DefaultConfig.customServers) = _
    rw [lookup_foldl_put DefaultConfig.customServers _ k (by decide),
      lookup_foldl_put DefaultWhoisServers _ k hdefnd]
    simp [DefaultConfig]
  | some cfg =>
    simp only [Option.getD_some] at hnd ⊢
    by_cases ht : cfg.timeout = 0
    · refine ⟨rfl, rfl, ?_, ?_, fun k => ?_⟩
      · simp [NewClient, ht]
      · simp [NewClient, ht]
      · have hb : (cfg.timeout == 0) = true := beq_iff_eq.mpr ht
        simp only [NewClient, hb, if_true]
        rw [lookup_foldl_put cfg.customServers _ k hnd,
          lookup_foldl_put DefaultWhoisServers _ k hdefnd]
        simp
    · refine ⟨rfl, rfl, ?_, ?_, fun k => ?_⟩
      · simp [NewClient, ht]
      · simp [NewClient, ht]
      · have hb : (cfg.timeout == 0) = false := by
          simpa using ht
        simp only [NewClient, hb, Bool.false_eq_true, if_false]
        rw [lookup_foldl_put cfg.customServers _ k hnd,
          lookup_foldl_put DefaultWhoisServers _ k hdefnd]
        simp

/-- Witness for claim C10 at a concrete configuration with a zero timeout and
one custom entry. -/
theorem claim_C10_witness :
    (NewClient (some wConfig)).2 = none ∧
    (NewClient (some wConfig)).1.timeout = 10 * nsPerSecond ∧
    List.lookup "zz" (NewClient (some wConfig)).1.servers =
      some { host := "whois.example", port := "43" } := by
  have h := claim_C10_construction (some wConfig) (by decide)
  refine ⟨h.1, ?_, ?_⟩
  · rw [h.2.2.1]
    rfl
  · rw [h.2.2.2.2 "zz"]
    rfl

end WhoisSpec
